import Mathlib

/-!
Verification of the hydroeval goodness-of-fit evaluator specification.

The repository ships only an example notebook under `examples/`; the core
library (the `evaluator` dispatcher and the objective-function catalog) is
not part of the available sources, so every definition below is modelled
from the specification text.  Values are rationals, with `none` standing
for the not-a-number missing-value marker; the decision layer (validation,
transforms, masking, degenerate-denominator checks) is kept over `ℚ` so it
is executable, and only the final formula values live in `ℝ` (square roots).
-/

set_option autoImplicit false

namespace HydroEval

/-- A single array entry: a floating-point value modelled as a rational, or
`none` for the not-a-number missing-value marker. -/
abbrev Val := Option ℚ

/-- Modelled from the spec: the two error kinds of §7, `ValidationError` for
malformed input shape and `DataError` for insufficient or degenerate data. -/
inductive HydroErr where
  | validationError (msg : String)
  | dataError (msg : String)
  deriving DecidableEq, Repr

/-- Modelled from the spec: a numpy-like input array, 1-dimensional,
2-dimensional (a list of rows), or of higher dimensionality `k + 3`
(its contents are irrelevant because the evaluator rejects any array whose
dimensionality exceeds 2). -/
inductive NpArr where
  | d1 (xs : List Val)
  | d2 (rows : List (List Val))
  | dHigher (k : Nat)

/-- Dimensionality of an input array. -/
def NpArr.ndim : NpArr → Nat
  | .d1 _ => 1
  | .d2 _ => 2
  | .dHigher k => k + 3

/-- Modelled from the spec: an output array, which is a scalar (single
simulated series, single-component formula), a 1-D array (several series,
single-component formula; or one series, multi-component formula), or a 2-D
array (several series, multi-component formula). -/
inductive OutArr where
  | scalar (v : ℝ)
  | oneD (l : List ℝ)
  | twoD (m : List (List ℝ))

/-- Transpose of a 2-D array given as a list of rows: column `j` collects
the `j`-th entry of every row (rows lacking a `j`-th entry are skipped,
which never happens on rectangular input). -/
def transposeL {α : Type} (m : List (List α)) : List (List α) :=
  (List.range (m.headD []).length).map (fun j => m.filterMap (fun row => row[j]?))

/-- Transpose a 2-D output array, leaving scalars and 1-D arrays unchanged. -/
def transposeOut : OutArr → OutArr
  | .twoD m => .twoD (transposeL m)
  | o => o

/-- Modelled from the spec: the observed array must hold exactly one time
series, being 1-D or 2-D with one axis of length 1 (§3); it is flattened to
that single series, and any other shape is a `ValidationError` ("observed
array has more than one non-unit-length dimension", §7). -/
def obsSeries : NpArr → Except HydroErr (List Val)
  | .d1 xs => .ok xs
  | .d2 rows =>
      if rows.length == 1 || rows.all (fun r => r.length == 1) then .ok rows.flatten
      else .error (.validationError "observed array must contain a single series")
  | .dHigher _ => .error (.validationError "arrays must be one- or two-dimensional")

/-- Modelled from the spec: the list of simulated time series carried by the
simulated array.  A 1-D array is one series; for a 2-D array the `axis`
flag declares which dimension is time (§3): with `axis = 1` each row is a
series, otherwise (default `axis = 0`, time on the first axis) the series
are the columns.  Higher-dimensional arrays are rejected beforehand. -/
def simSeries : NpArr → Nat → List (List Val)
  | .d1 xs, _ => [xs]
  | .d2 rows, a => if a = 1 then rows else transposeL rows
  | .dHigher _, _ => []

/-- Modelled from the spec: transform names recognized by the evaluator
(§4.1: inverse, square-root, logarithm, power; the example notebook shows
the inverse transform is selected by the literal string `"inv"`). -/
def knownTransforms : List String := ["inv", "sqrt", "log", "pow"]

/-- `true` when a transform keyword was supplied but its name is unknown. -/
def unknownTransform : Option String → Bool
  | none => false
  | some t => !(knownTransforms.contains t)

/-- Modelled from the spec: the elementwise inverse transform.  Missing
values stay missing; a zero value has no reciprocal and raises a
`DataError` (§4.1 step 2 requires an explicit divide-by-zero policy; the
raising policy is chosen here). -/
def invSeries : List Val → Except HydroErr (List Val)
  | [] => .ok []
  | none :: rest => (invSeries rest).map (fun l => none :: l)
  | some q :: rest =>
      if q = 0 then .error (.dataError "zero value has no reciprocal in inverse transform")
      else (invSeries rest).map (fun l => some q⁻¹ :: l)

/-- Modelled from the spec: apply the requested transform elementwise
(§4.1 step 2).  Only the inverse transform changes values in this model;
the square-root, logarithm and power transforms leave the rational domain
and are not exercised by any claim, so they are modelled as the identity
(power with exponent 1).  Unknown names are rejected before this point. -/
def applyTransform : Option String → List Val → Except HydroErr (List Val)
  | none, l => .ok l
  | some t, l => if t = "inv" then invSeries l else .ok l

/-- Modelled from the spec: pairwise deletion mask (§4.1 step 3).  Keep the
simulated entries at exactly the positions where the observed series holds
a present (non-missing) value. -/
def maskSim : List Val → List Val → List Val
  | some _ :: os, s :: ss => s :: maskSim os ss
  | none :: os, _ :: ss => maskSim os ss
  | _, _ => []

/-- Turn a masked simulated series into plain rationals; a missing value
surviving the mask violates the evaluator's guarantee to the formulas
(§4.2: arrays reach the formulas free of missing values) and is a
`DataError`. -/
def desomeE : List Val → Except HydroErr (List ℚ)
  | [] => .ok []
  | none :: _ => .error (.dataError "missing values remain in simulated series")
  | some q :: rest =>
      match desomeE rest with
      | .error e => .error e
      | .ok qs => .ok (q :: qs)

/-- Apply a fallible function to every element, failing on the first error. -/
def exceptMap {α β : Type} (g : α → Except HydroErr β) : List α → Except HydroErr (List β)
  | [] => .ok []
  | a :: as =>
      match g a with
      | .error e => .error e
      | .ok b =>
          match exceptMap g as with
          | .error e => .error e
          | .ok bs => .ok (b :: bs)

/-- Arithmetic mean of a list of rationals (0 on the empty list). -/
def mean (l : List ℚ) : ℚ := l.sum / (l.length : ℚ)

/-- Sum of squared deviations from the mean. -/
def sqDev (l : List ℚ) : ℚ := (l.map (fun x => (x - mean l) ^ 2)).sum

/-- Sum of squared pairwise errors between two series. -/
def sse (o s : List ℚ) : ℚ := ((o.zip s).map (fun p => (p.1 - p.2) ^ 2)).sum

/-- Sum of products of paired deviations (covariance numerator). -/
def covSum (o s : List ℚ) : ℚ :=
  ((o.zip s).map (fun p => (p.1 - mean o) * (p.2 - mean s))).sum

/-- Pearson correlation component of the KGE family. -/
noncomputable def kgeR (o s : List ℚ) : ℝ :=
  ((covSum o s : ℚ) : ℝ) / Real.sqrt (((sqDev o : ℚ) : ℝ) * ((sqDev s : ℚ) : ℝ))

/-- Variability ratio α = σ_sim / σ_obs of KGE. -/
noncomputable def kgeAlpha (o s : List ℚ) : ℝ :=
  Real.sqrt (((sqDev s : ℚ) : ℝ) / ((sqDev o : ℚ) : ℝ))

/-- Bias ratio β = μ_sim / μ_obs of the KGE family. -/
noncomputable def kgeBeta (o s : List ℚ) : ℝ :=
  ((mean s : ℚ) : ℝ) / ((mean o : ℚ) : ℝ)

/-- Variability ratio γ = CV_sim / CV_obs of KGE-prime (coefficient of
variation ratio). -/
noncomputable def kgeGamma (o s : List ℚ) : ℝ :=
  kgeAlpha o s * (((mean o : ℚ) : ℝ) / ((mean s : ℚ) : ℝ))

/-- Euclidean distance of the KGE components from the ideal point (1,1,1). -/
noncomputable def kgeED (o s : List ℚ) : ℝ :=
  Real.sqrt ((kgeR o s - 1) ^ 2 + (kgeAlpha o s - 1) ^ 2 + (kgeBeta o s - 1) ^ 2)

/-- Composite KGE score, 1 − ED. -/
noncomputable def kgeScore (o s : List ℚ) : ℝ := 1 - kgeED o s

/-- Euclidean distance of the KGE-prime components from (1,1,1). -/
noncomputable def kgeprimeED (o s : List ℚ) : ℝ :=
  Real.sqrt ((kgeR o s - 1) ^ 2 + (kgeGamma o s - 1) ^ 2 + (kgeBeta o s - 1) ^ 2)

/-- Composite KGE-prime score, 1 − ED. -/
noncomputable def kgeprimeScore (o s : List ℚ) : ℝ := 1 - kgeprimeED o s

/-- Modelled from the spec: an objective function of the catalog (§4.2): a
component count, a degenerate-input check raising a `DataError` message, and
the pure value computation on clean aligned series (observed series first). -/
structure ObjFun where
  ncomp : Nat
  check : List ℚ → List ℚ → Option String
  compute : List ℚ → List ℚ → List ℝ
  compute_len : ∀ o s, (compute o s).length = ncomp

/-- Degenerate-input check for NSE: zero-length series, or zero variance of
the observed series (its denominator). -/
def nseCheck (o _s : List ℚ) : Option String :=
  if o.length = 0 then some "zero-length series"
  else if sqDev o = 0 then some "zero variance in observed series"
  else none

/-- Degenerate-input check for RMSE: zero-length series. -/
def rmseCheck (o _s : List ℚ) : Option String :=
  if o.length = 0 then some "zero-length series" else none

/-- Degenerate-input check for KGE: zero-length series, zero variance of
either series (denominators of r and α), or zero observed mean
(denominator of β). -/
def kgeCheck (o s : List ℚ) : Option String :=
  if o.length = 0 then some "zero-length series"
  else if sqDev o = 0 then some "zero variance in observed series"
  else if sqDev s = 0 then some "zero variance in simulated series"
  else if mean o = 0 then some "zero mean in observed series"
  else none

/-- Degenerate-input check for KGE-prime: KGE's conditions plus a zero
simulated mean (denominator of the coefficient of variation γ). -/
def kgeprimeCheck (o s : List ℚ) : Option String :=
  if o.length = 0 then some "zero-length series"
  else if sqDev o = 0 then some "zero variance in observed series"
  else if sqDev s = 0 then some "zero variance in simulated series"
  else if mean o = 0 then some "zero mean in observed series"
  else if mean s = 0 then some "zero mean in simulated series"
  else none

/-- Modelled from the spec: Nash-Sutcliffe Efficiency,
NSE = 1 − Σ(obs−sim)² / Σ(obs−mean(obs))² (§4.2). -/
noncomputable def nse : ObjFun where
  ncomp := 1
  check := nseCheck
  compute := fun o s => [1 - ((sse o s : ℚ) : ℝ) / ((sqDev o : ℚ) : ℝ)]
  compute_len := fun _ _ => rfl

/-- Modelled from the spec: root mean square error,
RMSE = sqrt(mean((obs−sim)²)) (§4.2). -/
noncomputable def rmse : ObjFun where
  ncomp := 1
  check := rmseCheck
  compute := fun o s => [Real.sqrt (((sse o s : ℚ) : ℝ) / ((o.length : ℚ) : ℝ))]
  compute_len := fun _ _ => rfl

/-- Modelled from the spec: Kling-Gupta Efficiency, returning the composite
score and its three sub-components r, α, β (§4.2). -/
noncomputable def kge : ObjFun where
  ncomp := 4
  check := kgeCheck
  compute := fun o s => [kgeScore o s, kgeR o s, kgeAlpha o s, kgeBeta o s]
  compute_len := fun _ _ => rfl

/-- Modelled from the spec: KGE-prime, with the coefficient-of-variation
ratio γ as its variability component (§4.2). -/
noncomputable def kgeprime : ObjFun where
  ncomp := 4
  check := kgeprimeCheck
  compute := fun o s => [kgeprimeScore o s, kgeR o s, kgeGamma o s, kgeBeta o s]
  compute_len := fun _ _ => rfl

/-- Modelled from the spec: bounded KGE, rescaling the composite score by
bounded = raw / (2 − raw) and discarding the sub-components (§4.2). -/
noncomputable def kge_c2m : ObjFun where
  ncomp := 1
  check := kgeCheck
  compute := fun o s => [kgeScore o s / (2 - kgeScore o s)]
  compute_len := fun _ _ => rfl

/-- Modelled from the spec: bounded KGE-prime, raw / (2 − raw) on the
KGE-prime composite score. -/
noncomputable def kgeprime_c2m : ObjFun where
  ncomp := 1
  check := kgeprimeCheck
  compute := fun o s => [kgeprimeScore o s / (2 - kgeprimeScore o s)]
  compute_len := fun _ _ => rfl

/-- The objective-function catalog of §2. -/
noncomputable def catalog : List ObjFun := [nse, rmse, kge, kgeprime, kge_c2m, kgeprime_c2m]

/-- Apply an objective function to clean aligned series: run its
degenerate-input check, then compute (§4.2 failure semantics). -/
noncomputable def ObjFun.apply (f : ObjFun) (o s : List ℚ) : Except String (List ℝ) :=
  match f.check o s with
  | some m => .error m
  | none => .ok (f.compute o s)

/-- Modelled from the spec: the validation stage of the evaluator (§4.1,
§7): reject dimensionality above 2, an unknown transform name, an observed
array that does not hold a single series, and a length mismatch between the
observed series and any simulated series along the declared time axis.
Returns the raw (still unmasked) observed series. -/
def validate (sim obs : NpArr) (t : Option String) (axis : Nat) :
    Except HydroErr (List Val) :=
  if 2 < sim.ndim ∨ 2 < obs.ndim then
    .error (.validationError "arrays must be one- or two-dimensional")
  else if unknownTransform t then
    .error (.validationError "unknown transform name")
  else
    match obsSeries obs with
    | .error e => .error e
    | .ok oRaw =>
        if (simSeries sim axis).all (fun s => s.length == oRaw.length) then .ok oRaw
        else .error (.validationError "simulated and observed lengths differ along time axis")

/-- Modelled from the spec: the data stage of the evaluator (§4.1 steps
2-4): apply the transform to both arrays, apply the pairwise-deletion mask
computed from the observed series, and fail with a `DataError` when no
valid paired observations remain.  Returns the clean observed series and
the clean simulated series list handed to the formula. -/
def prepData (oRaw : List Val) (sims : List (List Val)) (t : Option String) :
    Except HydroErr (List ℚ × List (List ℚ)) :=
  match applyTransform t oRaw with
  | .error e => .error e
  | .ok oT =>
      match exceptMap (applyTransform t) sims with
      | .error e => .error e
      | .ok simsT =>
          let oClean := oT.filterMap id
          if oClean.isEmpty then
            .error (.dataError "no valid observation pairs remain")
          else
            match exceptMap (fun s => desomeE (maskSim oT s)) simsT with
            | .error e => .error e
            | .ok simsClean => .ok (oClean, simsClean)

/-- Modelled from the spec: the full preprocessing stage of the evaluator
(§4.1 steps 1-4): validation followed by transform, masking and the
empty-data check. -/
def prep (sim obs : NpArr) (t : Option String) (axis : Nat) :
    Except HydroErr (List ℚ × List (List ℚ)) :=
  match validate sim obs t axis with
  | .error e => .error e
  | .ok oRaw => prepData oRaw (simSeries sim axis) t

/-- Run the checked formula on every clean simulated series; a failing
degenerate-input check raises a `DataError` that propagates (§4.2). -/
noncomputable def applyAll (f : ObjFun) (o : List ℚ) : List (List ℚ) → Except HydroErr (List (List ℝ))
  | [] => .ok []
  | s :: rest =>
      match f.check o s with
      | some m => .error (.dataError m)
      | none =>
          match applyAll f o rest with
          | .error e => .error e
          | .ok rs => .ok (f.compute o s :: rs)

/-- Modelled from the spec: reassemble per-series results into an output
whose orientation mirrors the simulated input (§4.1 step 6 and §3): scalar
for one series and a single-component formula, 1-D otherwise for 1-D input;
for 2-D input a 1-D array of per-series values for single-component
formulas, and for multi-component formulas a 2-D array where the time axis
is replaced by the component axis. -/
def shapeOut (f : ObjFun) (sim : NpArr) (axis : Nat) (res : List (List ℝ)) : OutArr :=
  match sim with
  | .d1 _ =>
      if f.ncomp = 1 then .scalar ((res.headD []).headD 0)
      else .oneD (res.headD [])
  | _ =>
      if f.ncomp = 1 then .oneD (res.map (fun r => r.headD 0))
      else if axis = 1 then .twoD res else .twoD (transposeL res)

/-- Modelled from the spec: the evaluator (§4.1, §6): preprocess, dispatch
the selected objective function across the simulated series, and reshape
the results to mirror the input orientation.  Errors propagate uncaught. -/
noncomputable def evaluator (f : ObjFun) (sim obs : NpArr) (t : Option String) (axis : Nat) :
    Except HydroErr OutArr :=
  match prep sim obs t axis with
  | .error e => .error e
  | .ok (o, sims) =>
      match applyAll f o sims with
      | .error e => .error e
      | .ok res => .ok (shapeOut f sim axis res)

/-- The malformed-shape conditions of §7 for `ValidationError`:
dimensionality above 2, an observed array without a single series, an
unknown transform name, or a length mismatch along the declared time axis. -/
def validationFails (sim obs : NpArr) (t : Option String) (axis : Nat) : Bool :=
  (2 < sim.ndim) || (2 < obs.ndim) || unknownTransform t ||
    (match obsSeries obs with
     | .error _ => true
     | .ok oRaw => !((simSeries sim axis).all (fun s => s.length == oRaw.length)))

/-- The result of one simulated series extracted from a vectorized output:
for single-component formulas the `i`-th value as a scalar, for
multi-component formulas (output rows as series, `axis = 1`) the `i`-th
row as a 1-D array. -/
def pickSeries (f : ObjFun) (out : OutArr) (i : Nat) : OutArr :=
  match out with
  | .scalar v => .scalar v
  | .oneD l => if f.ncomp = 1 then .scalar (l.getD i 0) else .oneD l
  | .twoD m => .oneD (m.getD i [])

/-! ### Basic facts about the statistics helpers -/

theorem sqDev_nonneg (l : List ℚ) : 0 ≤ sqDev l := by
  apply List.sum_nonneg
  intro x hx
  obtain ⟨a, _, rfl⟩ := List.mem_map.mp hx
  positivity

theorem sqDev_nil : sqDev [] = 0 := rfl

theorem zip_self_map {α β : Type} (l : List α) (f : α × α → β) :
    (l.zip l).map f = l.map (fun x => f (x, x)) := by
  induction l with
  | nil => rfl
  | cons a tl ih => simp [List.zip_cons_cons, ih]

theorem sse_self (o : List ℚ) : sse o o = 0 := by
  unfold sse
  rw [zip_self_map]
  simp

theorem covSum_self (o : List ℚ) : covSum o o = sqDev o := by
  unfold covSum sqDev
  rw [zip_self_map]
  have h : (fun x : ℚ => (x - mean o) * (x - mean o)) = fun x : ℚ => (x - mean o) ^ 2 := by
    funext x
    ring
  simp only [h]

/-! ### Facts about `exceptMap` and the elementwise stages -/

theorem exceptMap_ok_length {α β : Type} (g : α → Except HydroErr β) :
    ∀ (l : List α) (bs : List β), exceptMap g l = .ok bs → bs.length = l.length := by
  intro l
  induction l with
  | nil =>
      intro bs h
      simp only [exceptMap] at h
      cases h
      rfl
  | cons a as ih =>
      intro bs h
      simp only [exceptMap] at h
      cases hga : g a with
      | error e => rw [hga] at h; cases h
      | ok b =>
          rw [hga] at h
          cases hm : exceptMap g as with
          | error e => rw [hm] at h; cases h
          | ok bs2 =>
              rw [hm] at h
              cases h
              simp [ih bs2 hm]

theorem exceptMap_ok_getElem {α β : Type} (g : α → Except HydroErr β) :
    ∀ (l : List α) (bs : List β), exceptMap g l = .ok bs →
      ∀ (i : Nat) (h1 : i < l.length) (h2 : i < bs.length), g l[i] = .ok bs[i] := by
  intro l
  induction l with
  | nil =>
      intro bs h i h1 h2
      exact absurd h1 (by simp)
  | cons a as ih =>
      intro bs h i h1 h2
      simp only [exceptMap] at h
      cases hga : g a with
      | error e => rw [hga] at h; cases h
      | ok b =>
          rw [hga] at h
          cases hm : exceptMap g as with
          | error e => rw [hm] at h; cases h
          | ok bs2 =>
              rw [hm] at h
              cases h
              cases i with
              | zero => simpa using hga
              | succ j =>
                  simp only [List.getElem_cons_succ]
                  exact ih bs2 hm j (by simpa using h1) (by simpa using h2)

theorem exceptMap_error {α β : Type} (g : α → Except HydroErr β) :
    ∀ (l : List α) (e : HydroErr), exceptMap g l = .error e → ∃ a ∈ l, g a = .error e := by
  intro l
  induction l with
  | nil => intro e h; cases h
  | cons a as ih =>
      intro e h
      simp only [exceptMap] at h
      cases hga : g a with
      | error e2 =>
          rw [hga] at h
          cases h
          exact ⟨a, List.mem_cons_self a as, hga⟩
      | ok b =>
          rw [hga] at h
          cases hm : exceptMap g as with
          | error e2 =>
              rw [hm] at h
              cases h
              obtain ⟨x, hx, hgx⟩ := ih e hm
              exact ⟨x, List.mem_cons_of_mem a hx, hgx⟩
          | ok bs2 => rw [hm] at h; cases h

theorem exceptMap_applyTransform_none (l : List (List Val)) :
    exceptMap (applyTransform none) l = .ok l := by
  induction l with
  | nil => rfl
  | cons a as ih => simp [exceptMap, applyTransform, ih]

theorem invSeries_error :
    ∀ (l : List Val) (e : HydroErr), invSeries l = .error e → ∃ m, e = .dataError m := by
  intro l
  induction l with
  | nil => intro e h; cases h
  | cons v tl ih =>
      intro e h
      cases v with
      | none =>
          simp only [invSeries] at h
          cases hm : invSeries tl with
          | error e2 =>
              rw [hm] at h
              simp only [Except.map] at h
              cases h
              exact ih e hm
          | ok l2 => rw [hm] at h; simp only [Except.map] at h; cases h
      | some q =>
          simp only [invSeries] at h
          by_cases hq : q = 0
          · rw [if_pos hq] at h
            cases h
            exact ⟨_, rfl⟩
          · rw [if_neg hq] at h
            cases hm : invSeries tl with
            | error e2 =>
                rw [hm] at h
                simp only [Except.map] at h
                cases h
                exact ih e hm
            | ok l2 => rw [hm] at h; simp only [Except.map] at h; cases h

theorem applyTransform_error (t : Option String) (l : List Val) (e : HydroErr)
    (h : applyTransform t l = .error e) : ∃ m, e = .dataError m := by
  cases t with
  | none => cases h
  | some s =>
      simp only [applyTransform] at h
      by_cases hs : s = "inv"
      · rw [if_pos hs] at h
        exact invSeries_error l e h
      · rw [if_neg hs] at h
        cases h

theorem desomeE_error :
    ∀ (l : List Val) (e : HydroErr), desomeE l = .error e → ∃ m, e = .dataError m := by
  intro l
  induction l with
  | nil => intro e h; cases h
  | cons v tl ih =>
      intro e h
      cases v with
      | none =>
          simp only [desomeE] at h
          cases h
          exact ⟨_, rfl⟩
      | some q =>
          simp only [desomeE] at h
          cases hm : desomeE tl with
          | error e2 =>
              rw [hm] at h
              cases h
              exact ih e hm
          | ok qs => rw [hm] at h; cases h

/-! ### Error classification for the evaluator stages -/

theorem obsSeries_error (obs : NpArr) (e : HydroErr) (h : obsSeries obs = .error e) :
    ∃ m, e = .validationError m := by
  cases obs with
  | d1 xs => cases h
  | d2 rows =>
      simp only [obsSeries] at h
      by_cases hc : (rows.length == 1 || rows.all fun r => r.length == 1) = true
      · rw [if_pos hc] at h; cases h
      · rw [if_neg hc] at h
        cases h
        exact ⟨_, rfl⟩
  | dHigher k =>
      simp only [obsSeries] at h
      cases h
      exact ⟨_, rfl⟩

theorem validate_error_kind (sim obs : NpArr) (t : Option String) (axis : Nat) (e : HydroErr)
    (h : validate sim obs t axis = .error e) : ∃ m, e = .validationError m := by
  unfold validate at h
  by_cases h1 : 2 < sim.ndim ∨ 2 < obs.ndim
  · rw [if_pos h1] at h
    cases h
    exact ⟨_, rfl⟩
  · rw [if_neg h1] at h
    by_cases h2 : unknownTransform t = true
    · rw [if_pos h2] at h
      cases h
      exact ⟨_, rfl⟩
    · rw [if_neg h2] at h
      cases ho : obsSeries obs with
      | error e2 =>
          rw [ho] at h
          cases h
          exact obsSeries_error obs e ho
      | ok oRaw =>
          rw [ho] at h
          dsimp only at h
          by_cases h3 : ((simSeries sim axis).all fun s => s.length == oRaw.length) = true
          · rw [if_pos h3] at h; cases h
          · rw [if_neg h3] at h
            cases h
            exact ⟨_, rfl⟩

theorem prepData_error (oRaw : List Val) (sims : List (List Val)) (t : Option String)
    (e : HydroErr) (h : prepData oRaw sims t = .error e) : ∃ m, e = .dataError m := by
  unfold prepData at h
  cases h1 : applyTransform t oRaw with
  | error e2 =>
      rw [h1] at h
      cases h
      exact applyTransform_error t oRaw e h1
  | ok oT =>
      rw [h1] at h
      cases h2 : exceptMap (applyTransform t) sims with
      | error e2 =>
          rw [h2] at h
          cases h
          obtain ⟨a, _, ha⟩ := exceptMap_error (applyTransform t) sims e h2
          exact applyTransform_error t a e ha
      | ok simsT =>
          rw [h2] at h
          dsimp only at h
          by_cases h3 : (oT.filterMap id).isEmpty = true
          · rw [if_pos h3] at h
            cases h
            exact ⟨_, rfl⟩
          · rw [if_neg h3] at h
            cases h4 : exceptMap (fun s => desomeE (maskSim oT s)) simsT with
            | error e2 =>
                rw [h4] at h
                cases h
                obtain ⟨a, _, ha⟩ := exceptMap_error _ simsT e h4
                exact desomeE_error (maskSim oT a) e ha
            | ok simsClean => rw [h4] at h; cases h

theorem applyAll_error (f : ObjFun) (o : List ℚ) :
    ∀ (ss : List (List ℚ)) (e : HydroErr), applyAll f o ss = .error e → ∃ m, e = .dataError m := by
  intro ss
  induction ss with
  | nil => intro e h; cases h
  | cons s rest ih =>
      intro e h
      simp only [applyAll] at h
      cases hc : f.check o s with
      | some m =>
          rw [hc] at h
          cases h
          exact ⟨_, rfl⟩
      | none =>
          rw [hc] at h
          cases hr : applyAll f o rest with
          | error e2 =>
              rw [hr] at h
              cases h
              exact ih e hr
          | ok rs => rw [hr] at h; cases h

theorem applyAll_ok (f : ObjFun) (o : List ℚ) :
    ∀ (ss : List (List ℚ)) (res : List (List ℝ)), applyAll f o ss = .ok res →
      (∀ s ∈ ss, f.check o s = none) ∧ res = ss.map (f.compute o) := by
  intro ss
  induction ss with
  | nil =>
      intro res h
      simp only [applyAll] at h
      cases h
      exact ⟨by simp, rfl⟩
  | cons s rest ih =>
      intro res h
      simp only [applyAll] at h
      cases hc : f.check o s with
      | some m => rw [hc] at h; cases h
      | none =>
          rw [hc] at h
          cases hr : applyAll f o rest with
          | error e2 => rw [hr] at h; cases h
          | ok rs =>
              rw [hr] at h
              cases h
              obtain ⟨hchecks, hres⟩ := ih rs hr
              refine ⟨?_, by simp [hres]⟩
              intro x hx
              rcases List.mem_cons.mp hx with hx | hx
              · subst hx; exact hc
              · exact hchecks x hx

theorem validationFails_iff (sim obs : NpArr) (t : Option String) (axis : Nat) :
    validationFails sim obs t axis = true ↔ ∃ e, validate sim obs t axis = .error e := by
  unfold validationFails validate
  by_cases h1 : 2 < sim.ndim ∨ 2 < obs.ndim
  · rw [if_pos h1]
    simp only [Bool.or_eq_true, decide_eq_true_eq]
    constructor
    · intro _
      exact ⟨_, rfl⟩
    · intro _
      tauto
  · rw [if_neg h1]
    rw [not_or] at h1
    simp only [Bool.or_eq_true, decide_eq_true_eq]
    by_cases h2 : unknownTransform t = true
    · rw [if_pos h2]
      constructor
      · intro _
        exact ⟨_, rfl⟩
      · intro _
        tauto
    · rw [if_neg h2]
      cases ho : obsSeries obs with
      | error e2 =>
          constructor
          · intro _
            exact ⟨_, rfl⟩
          · intro _
            tauto
      | ok oRaw =>
          dsimp only
          by_cases h3 : ((simSeries sim axis).all fun s => s.length == oRaw.length) = true
          · rw [if_pos h3]
            constructor
            · intro hc
              rcases hc with ((hc | hc) | hc) | hc
              · exact absurd hc h1.1
              · exact absurd hc h1.2
              · exact absurd hc h2
              · simp [h3] at hc
            · intro ⟨e, he⟩
              cases he
          · rw [if_neg h3]
            constructor
            · intro _
              exact ⟨_, rfl⟩
            · intro _
              refine Or.inr ?_
              simp [h3]

theorem validate_ok (sim obs : NpArr) (t : Option String) (axis : Nat) (oRaw : List Val)
    (h : validate sim obs t axis = .ok oRaw) :
    obsSeries obs = .ok oRaw ∧
      ((simSeries sim axis).all fun s => s.length == oRaw.length) = true := by
  unfold validate at h
  by_cases h1 : 2 < sim.ndim ∨ 2 < obs.ndim
  · rw [if_pos h1] at h; cases h
  · rw [if_neg h1] at h
    by_cases h2 : unknownTransform t = true
    · rw [if_pos h2] at h; cases h
    · rw [if_neg h2] at h
      cases ho : obsSeries obs with
      | error e2 => rw [ho] at h; cases h
      | ok oR2 =>
          rw [ho] at h
          dsimp only at h
          by_cases h3 : ((simSeries sim axis).all fun s => s.length == oR2.length) = true
          · rw [if_pos h3] at h
            cases h
            exact ⟨rfl, h3⟩
          · rw [if_neg h3] at h; cases h

/-! ### Masking, pairwise deletion and the transforms -/

theorem filterMap_id_eraseIdx :
    ∀ (l : List Val) (i : Nat), l[i]? = some none →
      (l.eraseIdx i).filterMap id = l.filterMap id := by
  intro l
  induction l with
  | nil => intro i h; simp at h
  | cons v tl ih =>
      intro i h
      cases i with
      | zero =>
          simp only [List.getElem?_cons_zero, Option.some.injEq] at h
          subst h
          simp [List.eraseIdx]
      | succ j =>
          simp only [List.getElem?_cons_succ] at h
          simp only [List.eraseIdx_cons_succ, List.filterMap_cons]
          rw [ih j h]

theorem maskSim_eraseIdx :
    ∀ (o s : List Val) (i : Nat), o[i]? = some none → s.length = o.length →
      maskSim (o.eraseIdx i) (s.eraseIdx i) = maskSim o s := by
  intro o
  induction o with
  | nil => intro s i h _; simp at h
  | cons ov otl ih =>
      intro s i h hl
      cases s with
      | nil => simp at hl
      | cons sv stl =>
          have hl2 : stl.length = otl.length := by simpa using hl
          cases i with
          | zero =>
              simp only [List.getElem?_cons_zero, Option.some.injEq] at h
              subst h
              simp [List.eraseIdx, maskSim]
          | succ j =>
              simp only [List.getElem?_cons_succ] at h
              cases ov with
              | none => simp [List.eraseIdx_cons_succ, maskSim, ih stl j h hl2]
              | some q => simp [List.eraseIdx_cons_succ, maskSim, ih stl j h hl2]

theorem invSeries_map_some :
    ∀ (l : List ℚ), (∀ q ∈ l, q ≠ 0) →
      invSeries (l.map some) = .ok (l.map (fun q => some q⁻¹)) := by
  intro l
  induction l with
  | nil => intro _; rfl
  | cons q tl ih =>
      intro h
      have hq : q ≠ 0 := h q (List.mem_cons_self q tl)
      have htl := ih (fun x hx => h x (List.mem_cons_of_mem q hx))
      simp [invSeries, if_neg hq, htl, Except.map]

theorem invSeries_all_none :
    ∀ (l : List Val), (∀ v ∈ l, v = none) → invSeries l = .ok l := by
  intro l
  induction l with
  | nil => intro _; rfl
  | cons v tl ih =>
      intro h
      have hv : v = none := h v (List.mem_cons_self v tl)
      subst hv
      simp [invSeries, ih (fun x hx => h x (List.mem_cons_of_mem none hx)), Except.map]

theorem applyTransform_all_none (t : Option String) (l : List Val) (h : ∀ v ∈ l, v = none) :
    applyTransform t l = .ok l := by
  cases t with
  | none => rfl
  | some s =>
      simp only [applyTransform]
      by_cases hs : s = "inv"
      · rw [if_pos hs]
        exact invSeries_all_none l h
      · rw [if_neg hs]

/-! ### Transpose facts -/

theorem filterMap_head_singletons :
    ∀ (w : List (List Val)), (∀ r ∈ w, r.length = 1) →
      w.filterMap (fun r => r[0]?) = w.flatten := by
  intro w
  induction w with
  | nil => intro _; rfl
  | cons r tl ih =>
      intro h
      have hr : r.length = 1 := h r (List.mem_cons_self r tl)
      obtain ⟨a, ha⟩ : ∃ a, r = [a] := by
        cases r with
        | nil => simp at hr
        | cons x rtl =>
            cases rtl with
            | nil => exact ⟨x, rfl⟩
            | cons y ytl => simp at hr
      subst ha
      simp [List.filterMap_cons, ih (fun x hx => h x (List.mem_cons_of_mem _ hx))]

theorem transposeL_singletons (w : List (List Val)) (hw : ∀ r ∈ w, r.length = 1) :
    obsSeries (.d2 (transposeL w)) = obsSeries (.d2 w) := by
  cases w with
  | nil => rfl
  | cons r tl =>
      have hr : r.length = 1 := hw r (List.mem_cons_self r tl)
      have hrange : List.range 1 = [0] := rfl
      have ht : transposeL (r :: tl) = [(r :: tl).flatten] := by
        unfold transposeL
        simp only [List.headD_cons, hr, hrange, List.map_cons, List.map_nil]
        rw [filterMap_head_singletons (r :: tl) hw]
      rw [ht]
      have hc2 : (((r :: tl).length == 1) || (r :: tl).all fun x => x.length == 1) = true := by
        rw [Bool.or_eq_true]
        right
        simp only [List.all_eq_true, beq_iff_eq]
        exact hw
      have hc1 : (([(r :: tl).flatten].length == 1) ||
          [(r :: tl).flatten].all fun x => x.length == 1) = true := by
        rw [Bool.or_eq_true]
        left
        rfl
      simp only [obsSeries]
      rw [if_pos hc1, if_pos hc2]
      simp

/-! ### Decomposition of the evaluator pipeline -/

theorem prep_ok_parts (sim obs : NpArr) (t : Option String) (axis : Nat)
    (o : List ℚ) (sims : List (List ℚ)) (h : prep sim obs t axis = .ok (o, sims)) :
    ∃ oRaw oT simsT, validate sim obs t axis = .ok oRaw ∧
      applyTransform t oRaw = .ok oT ∧
      exceptMap (applyTransform t) (simSeries sim axis) = .ok simsT ∧
      o = oT.filterMap id ∧ (oT.filterMap id).isEmpty = false ∧
      exceptMap (fun s => desomeE (maskSim oT s)) simsT = .ok sims := by
  unfold prep at h
  cases hv : validate sim obs t axis with
  | error e => rw [hv] at h; cases h
  | ok oRaw =>
      rw [hv] at h
      dsimp only at h
      unfold prepData at h
      cases h1 : applyTransform t oRaw with
      | error e => rw [h1] at h; cases h
      | ok oT =>
          rw [h1] at h
          dsimp only at h
          cases h2 : exceptMap (applyTransform t) (simSeries sim axis) with
          | error e => rw [h2] at h; cases h
          | ok simsT =>
              rw [h2] at h
              dsimp only at h
              by_cases h3 : (oT.filterMap id).isEmpty = true
              · rw [if_pos h3] at h; cases h
              · rw [if_neg h3] at h
                cases h4 : exceptMap (fun s => desomeE (maskSim oT s)) simsT with
                | error e => rw [h4] at h; cases h
                | ok simsClean =>
                    rw [h4] at h
                    cases h
                    refine ⟨oRaw, oT, simsT, rfl, h1, rfl, rfl, ?_, h4⟩
                    simp only [Bool.not_eq_true] at h3
                    exact h3

theorem prep_ok_simsLength (sim obs : NpArr) (t : Option String) (axis : Nat)
    (o : List ℚ) (sims : List (List ℚ)) (h : prep sim obs t axis = .ok (o, sims)) :
    sims.length = (simSeries sim axis).length := by
  obtain ⟨oRaw, oT, simsT, _, _, h2, _, _, h4⟩ := prep_ok_parts sim obs t axis o sims h
  rw [exceptMap_ok_length _ simsT sims h4, exceptMap_ok_length _ _ simsT h2]

theorem prep_error_cases (sim obs : NpArr) (t : Option String) (axis : Nat) (e : HydroErr)
    (h : prep sim obs t axis = .error e) :
    validate sim obs t axis = .error e ∨
      ∃ oRaw, validate sim obs t axis = .ok oRaw ∧
        prepData oRaw (simSeries sim axis) t = .error e := by
  unfold prep at h
  cases hv : validate sim obs t axis with
  | error e2 =>
      rw [hv] at h
      cases h
      exact Or.inl rfl
  | ok oRaw =>
      rw [hv] at h
      exact Or.inr ⟨oRaw, rfl, h⟩

theorem evaluator_ok_parts (f : ObjFun) (sim obs : NpArr) (t : Option String) (axis : Nat)
    (out : OutArr) (h : evaluator f sim obs t axis = .ok out) :
    ∃ o sims res, prep sim obs t axis = .ok (o, sims) ∧ applyAll f o sims = .ok res ∧
      res = sims.map (f.compute o) ∧ out = shapeOut f sim axis res := by
  unfold evaluator at h
  cases hp : prep sim obs t axis with
  | error e => rw [hp] at h; cases h
  | ok p =>
      obtain ⟨o, sims⟩ := p
      rw [hp] at h
      dsimp only at h
      cases ha : applyAll f o sims with
      | error e => rw [ha] at h; cases h
      | ok res =>
          rw [ha] at h
          cases h
          exact ⟨o, sims, res, rfl, ha, (applyAll_ok f o sims res ha).2, rfl⟩

theorem evaluator_error_cases (f : ObjFun) (sim obs : NpArr) (t : Option String) (axis : Nat)
    (e : HydroErr) (h : evaluator f sim obs t axis = .error e) :
    prep sim obs t axis = .error e ∨ ∃ m, e = .dataError m := by
  unfold evaluator at h
  cases hp : prep sim obs t axis with
  | error e2 =>
      rw [hp] at h
      cases h
      exact Or.inl rfl
  | ok p =>
      obtain ⟨o, sims⟩ := p
      rw [hp] at h
      dsimp only at h
      cases ha : applyAll f o sims with
      | error e2 =>
          rw [ha] at h
          cases h
          exact Or.inr (applyAll_error f o sims e ha)
      | ok res => rw [ha] at h; cases h

theorem evaluator_of_validate_error (f : ObjFun) (sim obs : NpArr) (t : Option String)
    (axis : Nat) (e : HydroErr) (h : validate sim obs t axis = .error e) :
    evaluator f sim obs t axis = .error e := by
  unfold evaluator prep
  rw [h]

/-! ### Perfect-fit values and bounds of the formulas -/

theorem kgeR_self (o : List ℚ) (hv : sqDev o ≠ 0) : kgeR o o = 1 := by
  unfold kgeR
  rw [covSum_self]
  have hnn : (0 : ℝ) ≤ ((sqDev o : ℚ) : ℝ) := by exact_mod_cast sqDev_nonneg o
  rw [Real.sqrt_mul_self hnn]
  have hne : ((sqDev o : ℚ) : ℝ) ≠ 0 := by exact_mod_cast hv
  exact div_self hne

theorem kgeAlpha_self (o : List ℚ) (hv : sqDev o ≠ 0) : kgeAlpha o o = 1 := by
  unfold kgeAlpha
  have hne : ((sqDev o : ℚ) : ℝ) ≠ 0 := by exact_mod_cast hv
  rw [div_self hne, Real.sqrt_one]

theorem kgeBeta_self (o : List ℚ) (hm : mean o ≠ 0) : kgeBeta o o = 1 := by
  unfold kgeBeta
  have hne : ((mean o : ℚ) : ℝ) ≠ 0 := by exact_mod_cast hm
  exact div_self hne

theorem kgeGamma_self (o : List ℚ) (hv : sqDev o ≠ 0) (hm : mean o ≠ 0) : kgeGamma o o = 1 := by
  unfold kgeGamma
  rw [kgeAlpha_self o hv]
  have hne : ((mean o : ℚ) : ℝ) ≠ 0 := by exact_mod_cast hm
  rw [div_self hne, one_mul]

theorem kgeScore_self (o : List ℚ) (hv : sqDev o ≠ 0) (hm : mean o ≠ 0) : kgeScore o o = 1 := by
  unfold kgeScore kgeED
  rw [kgeR_self o hv, kgeAlpha_self o hv, kgeBeta_self o hm]
  norm_num

theorem kgeprimeScore_self (o : List ℚ) (hv : sqDev o ≠ 0) (hm : mean o ≠ 0) :
    kgeprimeScore o o = 1 := by
  unfold kgeprimeScore kgeprimeED
  rw [kgeR_self o hv, kgeGamma_self o hv hm, kgeBeta_self o hm]
  norm_num

theorem kgeScore_le_one (o s : List ℚ) : kgeScore o s ≤ 1 := by
  have h : 0 ≤ kgeED o s := by
    unfold kgeED
    exact Real.sqrt_nonneg _
  unfold kgeScore
  linarith

theorem kgeprimeScore_le_one (o s : List ℚ) : kgeprimeScore o s ≤ 1 := by
  have h : 0 ≤ kgeprimeED o s := by
    unfold kgeprimeED
    exact Real.sqrt_nonneg _
  unfold kgeprimeScore
  linarith

theorem c2m_bounds (k : ℝ) (hk : k ≤ 1) : -1 ≤ k / (2 - k) ∧ k / (2 - k) ≤ 1 := by
  have h2 : 0 < 2 - k := by linarith
  constructor
  · rw [le_div_iff₀ h2]
    linarith
  · rw [div_le_one h2]
    linarith

theorem validate_d1 (s o : List Val) (ax : Nat) (h : s.length = o.length) :
    validate (.d1 s) (.d1 o) none ax = .ok o := by
  unfold validate
  rw [if_neg (by norm_num [NpArr.ndim])]
  rw [if_neg (by norm_num [unknownTransform])]
  dsimp only [obsSeries, simSeries]
  rw [if_pos (by simp [h])]

theorem prepData_none (oRaw : List Val) (sims : List (List Val)) :
    prepData oRaw sims none =
      (if (oRaw.filterMap id).isEmpty then
        Except.error (.dataError "no valid observation pairs remain")
       else
        match exceptMap (fun s => desomeE (maskSim oRaw s)) sims with
        | .error e => .error e
        | .ok simsClean => .ok (oRaw.filterMap id, simsClean)) := by
  unfold prepData
  rw [show applyTransform none oRaw = .ok oRaw from rfl, exceptMap_applyTransform_none]

/-! ### The claims -/

/-- C1: pairwise deletion equivalence.  For every observed/simulated pair of
equal length and every index `i` at which the observed series holds a
not-a-number (and the simulated series holds any value), the evaluator
returns exactly the same result as on the pair with index `i` removed from
both series beforehand. -/
theorem C1_pairwise_deletion (f : ObjFun) (obs sim : List Val) (i : Nat)
    (hnan : obs[i]? = some none) (hlen : sim.length = obs.length) :
    evaluator f (.d1 sim) (.d1 obs) none 0 =
      evaluator f (.d1 (sim.eraseIdx i)) (.d1 (obs.eraseIdx i)) none 0 := by
  have hi : i < obs.length := by
    by_contra hc
    push_neg at hc
    rw [List.getElem?_eq_none hc] at hnan
    cases hnan
  have hi2 : i < sim.length := by omega
  have hlen2 : (sim.eraseIdx i).length = (obs.eraseIdx i).length := by
    rw [List.length_eraseIdx_of_lt hi2, List.length_eraseIdx_of_lt hi, hlen]
  have e1 : prepData obs [sim] none = prepData (obs.eraseIdx i) [sim.eraseIdx i] none := by
    rw [prepData_none, prepData_none]
    simp only [exceptMap]
    rw [filterMap_id_eraseIdx obs i hnan, maskSim_eraseIdx obs sim i hnan hlen]
  have hp1 : prep (.d1 sim) (.d1 obs) none 0 = prepData obs [sim] none := by
    unfold prep
    rw [validate_d1 sim obs 0 hlen]
    rfl
  have hp2 : prep (.d1 (sim.eraseIdx i)) (.d1 (obs.eraseIdx i)) none 0 =
      prepData (obs.eraseIdx i) [sim.eraseIdx i] none := by
    unfold prep
    rw [validate_d1 _ _ 0 hlen2]
    rfl
  unfold evaluator
  rw [hp1, hp2, e1]
  cases h : prepData (obs.eraseIdx i) [sim.eraseIdx i] none with
  | error e => rfl
  | ok p =>
      obtain ⟨o2, sims2⟩ := p
      dsimp only
      cases applyAll f o2 sims2 with
      | error e => rfl
      | ok res => rfl

/-- Witness for C1 at a concrete input: observed `[1, nan, 3]`, simulated
`[1, 9, 3]`, index 1. -/
theorem C1_pairwise_deletion_witness :
    ([some 1, none, some 3] : List Val)[1]? = some none ∧
    ([some 1, some 9, some 3] : List Val).length = ([some 1, none, some 3] : List Val).length ∧
    evaluator rmse (.d1 [some 1, some 9, some 3]) (.d1 [some 1, none, some 3]) none 0 =
      evaluator rmse (.d1 (([some 1, some 9, some 3] : List Val).eraseIdx 1))
        (.d1 (([some 1, none, some 3] : List Val).eraseIdx 1)) none 0 :=
  ⟨by decide, by decide,
    C1_pairwise_deletion rmse [some 1, none, some 3] [some 1, some 9, some 3] 1
      (by decide) (by decide)⟩

/-- C2: degenerate-denominator failure.  Every formula of the catalog raises
a `DataError` on zero-length input; NSE on observed `[0,0,0]` against
simulated `[1,2,3]` raises the zero-variance `DataError`, which the
evaluator propagates uncaught to the caller. -/
theorem C2_degenerate_denominator :
    (∀ f ∈ catalog, ∃ m, f.apply ([] : List ℚ) ([] : List ℚ) = .error m) ∧
    nse.apply [0, 0, 0] [1, 2, 3] = .error "zero variance in observed series" ∧
    evaluator nse (.d1 [some 1, some 2, some 3]) (.d1 [some 0, some 0, some 0]) none 0
      = .error (.dataError "zero variance in observed series") := by
  refine ⟨?_, ?_, ?_⟩
  · intro f hf
    simp only [catalog] at hf
    fin_cases hf <;> exact ⟨"zero-length series", rfl⟩
  · unfold ObjFun.apply
    norm_num [nse, nseCheck, sqDev, mean]
  · norm_num [evaluator, prep, validate, prepData, obsSeries, simSeries, applyTransform,
      exceptMap, maskSim, desomeE, NpArr.ndim, unknownTransform, List.filterMap, applyAll,
      nse, nseCheck, sqDev, mean]

/-- Witness for C2: the KGE formula is in the catalog and fails on
zero-length input. -/
theorem C2_degenerate_denominator_witness :
    ∃ m, ObjFun.apply kge ([] : List ℚ) ([] : List ℚ) = .error m :=
  C2_degenerate_denominator.1 kge (by simp [catalog])

/-- C6: perfect-fit identities for the single-component formulas.  For every
nonempty observed series of nonzero variance (a valid pair for both
formulas), RMSE of the series against itself is 0 and NSE is 1. -/
theorem C6_perfect_fit_single (o : List ℚ) (h0 : o ≠ []) (hv : sqDev o ≠ 0) :
    rmse.apply o o = .ok [0] ∧ nse.apply o o = .ok [1] := by
  have hlen : ¬ o.length = 0 := by simpa [List.length_eq_zero] using h0
  constructor
  · unfold ObjFun.apply
    simp only [rmse, rmseCheck, if_neg hlen]
    rw [sse_self]
    norm_num
  · unfold ObjFun.apply
    simp only [nse, nseCheck, if_neg hlen, if_neg hv]
    rw [sse_self]
    norm_num

/-- Witness for C6 at the concrete series `[1, 2]`. -/
theorem C6_perfect_fit_single_witness :
    ([1, 2] : List ℚ) ≠ [] ∧ sqDev [1, 2] ≠ 0 ∧
    rmse.apply [1, 2] [1, 2] = .ok [0] ∧ nse.apply [1, 2] [1, 2] = .ok [1] := by
  have h0 : ([1, 2] : List ℚ) ≠ [] := by simp
  have hv : sqDev [(1 : ℚ), 2] ≠ 0 := by norm_num [sqDev, mean]
  exact ⟨h0, hv, C6_perfect_fit_single [1, 2] h0 hv⟩

/-- C7: perfect-fit identity for the KGE family.  For every observed series
with nonzero variance and nonzero mean (a valid pair), KGE and KGE-prime of
the series against itself return a main score of 1 and all three
sub-components equal to 1. -/
theorem C7_perfect_fit_kge (o : List ℚ) (hv : sqDev o ≠ 0) (hm : mean o ≠ 0) :
    kge.apply o o = .ok [1, 1, 1, 1] ∧ kgeprime.apply o o = .ok [1, 1, 1, 1] := by
  have h0 : ¬ o.length = 0 := by
    intro hl
    apply hv
    rw [List.length_eq_zero.mp hl, sqDev_nil]
  constructor
  · unfold ObjFun.apply
    simp only [kge, kgeCheck, if_neg h0, if_neg hv, if_neg hm]
    rw [kgeScore_self o hv hm, kgeR_self o hv, kgeAlpha_self o hv, kgeBeta_self o hm]
  · unfold ObjFun.apply
    simp only [kgeprime, kgeprimeCheck, if_neg h0, if_neg hv, if_neg hm]
    rw [kgeprimeScore_self o hv hm, kgeR_self o hv, kgeGamma_self o hv hm, kgeBeta_self o hm]

/-- Witness for C7 at the concrete series `[1, 2]`. -/
theorem C7_perfect_fit_kge_witness :
    sqDev [(1 : ℚ), 2] ≠ 0 ∧ mean [(1 : ℚ), 2] ≠ 0 ∧
    kge.apply [1, 2] [1, 2] = .ok [1, 1, 1, 1] := by
  have hv : sqDev [(1 : ℚ), 2] ≠ 0 := by norm_num [sqDev, mean]
  have hm : mean [(1 : ℚ), 2] ≠ 0 := by norm_num [mean]
  exact ⟨hv, hm, (C7_perfect_fit_kge [1, 2] hv hm).1⟩

/-- C8: bounded-variant range.  For every input the bounded scores of
`kge_c2m` and `kgeprime_c2m` are obtained from the raw composite score by
`raw / (2 − raw)` and lie in the interval [−1, 1]. -/
theorem C8_bounded_variant_range (o s : List ℚ) :
    (kge_c2m.compute o s = [kgeScore o s / (2 - kgeScore o s)] ∧
      -1 ≤ kgeScore o s / (2 - kgeScore o s) ∧ kgeScore o s / (2 - kgeScore o s) ≤ 1) ∧
    (kgeprime_c2m.compute o s = [kgeprimeScore o s / (2 - kgeprimeScore o s)] ∧
      -1 ≤ kgeprimeScore o s / (2 - kgeprimeScore o s) ∧
        kgeprimeScore o s / (2 - kgeprimeScore o s) ≤ 1) := by
  obtain ⟨h1, h2⟩ := c2m_bounds (kgeScore o s) (kgeScore_le_one o s)
  obtain ⟨h3, h4⟩ := c2m_bounds (kgeprimeScore o s) (kgeprimeScore_le_one o s)
  exact ⟨⟨rfl, h1, h2⟩, ⟨rfl, h3, h4⟩⟩

/-- C3: vectorization equivalence.  Evaluating several simulated series
against one observed series in a single call (rows as series, `axis = 1`)
returns, for each series, exactly the value a separate single-series call
on that series returns. -/
theorem C3_vectorization (f : ObjFun) (rows : List (List Val)) (obs : List Val) (i : Nat)
    (hi : i < rows.length) (out : OutArr)
    (h : evaluator f (.d2 rows) (.d1 obs) none 1 = .ok out) :
    evaluator f (.d1 rows[i]) (.d1 obs) none 0 = .ok (pickSeries f out i) := by
  obtain ⟨o, sims, res, hprep, happ, hres, hout⟩ :=
    evaluator_ok_parts f (.d2 rows) (.d1 obs) none 1 out h
  obtain ⟨oRaw, oT, simsT, hval, ht, htm, hoClean, hne, hmask⟩ :=
    prep_ok_parts (.d2 rows) (.d1 obs) none 1 o sims hprep
  have hoT : oRaw = oT := by
    rw [show applyTransform none oRaw = Except.ok oRaw from rfl] at ht
    exact Except.ok.inj ht
  subst hoT
  have hrows : simSeries (.d2 rows) 1 = rows := by simp [simSeries]
  have hsimsT : rows = simsT := by
    rw [hrows, exceptMap_applyTransform_none] at htm
    exact Except.ok.inj htm
  subst hsimsT
  obtain ⟨hobs, hall⟩ := validate_ok (.d2 rows) (.d1 obs) none 1 oRaw hval
  have hoRaw : obs = oRaw := by
    rw [show obsSeries (.d1 obs) = Except.ok obs from rfl] at hobs
    exact Except.ok.inj hobs
  subst hoRaw
  subst hres
  have hslen : sims.length = rows.length := exceptMap_ok_length _ rows sims hmask
  have hi2 : i < sims.length := by omega
  have hmi : desomeE (maskSim obs rows[i]) = .ok sims[i] := by
    have := exceptMap_ok_getElem (fun s => desomeE (maskSim obs s)) rows sims hmask i hi hi2
    simpa using this
  have hleni : rows[i].length = obs.length := by
    have := List.all_eq_true.mp hall rows[i] (by rw [hrows]; exact List.getElem_mem hi)
    simpa using this
  have hprep1 : prep (.d1 rows[i]) (.d1 obs) none 0 = .ok (o, [sims[i]]) := by
    unfold prep
    rw [validate_d1 rows[i] obs 0 hleni]
    dsimp only [simSeries]
    rw [prepData_none]
    rw [if_neg (by simp [hne])]
    simp only [exceptMap, hmi]
    rw [hoClean]
  have hcheck : f.check o sims[i] = none :=
    (applyAll_ok f o sims _ happ).1 sims[i] (List.getElem_mem hi2)
  have happ1 : applyAll f o [sims[i]] = .ok [f.compute o sims[i]] := by
    simp only [applyAll, hcheck]
  unfold evaluator
  rw [hprep1]
  dsimp only
  rw [happ1]
  dsimp only
  congr 1
  subst hout
  have hgi : sims[i]? = some sims[i] := List.getElem?_eq_getElem hi2
  by_cases hc : f.ncomp = 1
  · simp [shapeOut, pickSeries, hc, List.getD_eq_getElem?_getD, List.getElem?_map, hgi]
  · simp [shapeOut, pickSeries, hc, List.getD_eq_getElem?_getD, List.getElem?_map, hgi]

/-- Witness for C3 at a concrete input: two simulated series against one
observed series, extracting series 0. -/
theorem C3_vectorization_witness :
    evaluator nse (.d2 [[some 1, some 2], [some 2, some 3]]) (.d1 [some 1, some 2]) none 1
      = .ok (.oneD [1, -3]) ∧
    evaluator nse (.d1 [some 1, some 2]) (.d1 [some 1, some 2]) none 0 =
      .ok (pickSeries nse (.oneD [1, -3]) 0) := by
  have h : evaluator nse (.d2 [[some 1, some 2], [some 2, some 3]])
      (.d1 [some 1, some 2]) none 1 = .ok (.oneD [1, -3]) := by
    norm_num [evaluator, prep, validate, prepData, obsSeries, simSeries, applyTransform,
      exceptMap, maskSim, desomeE, NpArr.ndim, unknownTransform, List.filterMap, applyAll,
      nse, nseCheck, sqDev, mean, sse, shapeOut]
  exact ⟨h, C3_vectorization nse [[some 1, some 2], [some 2, some 3]] [some 1, some 2] 0
    (by decide) (.oneD [1, -3]) h⟩

/-- C4: orientation invariance.  For a 2-D simulated array and a 2-D
observed array holding one series as a column, the default `axis = 0` call
equals the call on the transposed arrays with `axis = 1`, up to transposing
the 2-D output back (output orientation mirrors input orientation). -/
theorem C4_orientation_invariance (f : ObjFun) (m w : List (List Val))
    (hw : ∀ r ∈ w, r.length = 1) :
    evaluator f (.d2 m) (.d2 w) none 0 =
      Except.map transposeOut (evaluator f (.d2 (transposeL m)) (.d2 (transposeL w)) none 1) := by
  have hobs : obsSeries (.d2 (transposeL w)) = obsSeries (.d2 w) := transposeL_singletons w hw
  have hsims : simSeries (.d2 (transposeL m)) 1 = simSeries (.d2 m) 0 := by
    simp [simSeries]
  have hval : validate (.d2 (transposeL m)) (.d2 (transposeL w)) none 1 =
      validate (.d2 m) (.d2 w) none 0 := by
    unfold validate
    rw [hobs, hsims]
    norm_num [NpArr.ndim]
  have hprep : prep (.d2 m) (.d2 w) none 0 =
      prep (.d2 (transposeL m)) (.d2 (transposeL w)) none 1 := by
    unfold prep
    rw [hval, hsims]
  unfold evaluator
  rw [hprep]
  cases h : prep (.d2 (transposeL m)) (.d2 (transposeL w)) none 1 with
  | error e => rfl
  | ok p =>
      obtain ⟨o, sims⟩ := p
      dsimp only
      cases applyAll f o sims with
      | error e => rfl
      | ok res =>
          dsimp only
          by_cases hc : f.ncomp = 1
          · simp [shapeOut, hc, Except.map, transposeOut]
          · simp [shapeOut, hc, Except.map, transposeOut]

/-- Witness for C4 at a concrete input: a 2-per-1 observed column and one
simulated column. -/
theorem C4_orientation_invariance_witness :
    (∀ r ∈ ([[some 1], [some 2]] : List (List Val)), r.length = 1) ∧
    evaluator rmse (.d2 [[some 1], [some 2]]) (.d2 [[some 1], [some 2]]) none 0 =
      Except.map transposeOut
        (evaluator rmse (.d2 (transposeL [[some 1], [some 2]]))
          (.d2 (transposeL [[some 1], [some 2]])) none 1) :=
  ⟨by decide, C4_orientation_invariance rmse [[some 1], [some 2]] [[some 1], [some 2]] (by decide)⟩

/-- C5: output shape contract.  The KGE-family formulas compute exactly 4
values per series and the single-component formulas (including the bounded
`_c2m` variants) exactly 1; the evaluator returns a scalar for a 1-D
simulated input with a single-component formula, a 1-D array with one value
per series for a 2-D input, a 1-D array of the 4 components for a 1-D input
with KGE, and a 2-D array with one 4-component row per series for a 2-D
input with KGE. -/
theorem C5_output_shape :
    (∀ o s : List ℚ, (kge.compute o s).length = 4 ∧ (kgeprime.compute o s).length = 4 ∧
      (nse.compute o s).length = 1 ∧ (rmse.compute o s).length = 1 ∧
      (kge_c2m.compute o s).length = 1 ∧ (kgeprime_c2m.compute o s).length = 1) ∧
    (∀ (f : ObjFun) (xs : List Val) (obs : NpArr) (t : Option String) (out : OutArr),
      f.ncomp = 1 → evaluator f (.d1 xs) obs t 0 = .ok out → ∃ v, out = .scalar v) ∧
    (∀ (f : ObjFun) (rows : List (List Val)) (obs : NpArr) (t : Option String) (out : OutArr),
      f.ncomp = 1 → evaluator f (.d2 rows) obs t 1 = .ok out →
        ∃ l, out = .oneD l ∧ l.length = rows.length) ∧
    (∀ (xs : List Val) (obs : NpArr) (t : Option String) (out : OutArr),
      evaluator kge (.d1 xs) obs t 0 = .ok out → ∃ l, out = .oneD l ∧ l.length = 4) ∧
    (∀ (rows : List (List Val)) (obs : NpArr) (t : Option String) (out : OutArr),
      evaluator kge (.d2 rows) obs t 1 = .ok out →
        ∃ R, out = .twoD R ∧ R.length = rows.length ∧ ∀ r ∈ R, r.length = 4) := by
  refine ⟨fun o s => ⟨rfl, rfl, rfl, rfl, rfl, rfl⟩, ?_, ?_, ?_, ?_⟩
  · intro f xs obs t out hc h
    obtain ⟨o, sims, res, hprep, happ, hres, hout⟩ := evaluator_ok_parts f (.d1 xs) obs t 0 out h
    exact ⟨(res.headD []).headD 0, by rw [hout]; simp only [shapeOut]; rw [if_pos hc]⟩
  · intro f rows obs t out hc h
    obtain ⟨o, sims, res, hprep, happ, hres, hout⟩ := evaluator_ok_parts f (.d2 rows) obs t 1 out h
    have hlen : sims.length = rows.length := by
      have := prep_ok_simsLength (.d2 rows) obs t 1 o sims hprep
      simpa [simSeries] using this
    refine ⟨res.map (fun r => r.headD 0), by rw [hout]; simp [shapeOut, hc], ?_⟩
    rw [List.length_map, hres, List.length_map, hlen]
  · intro xs obs t out h
    obtain ⟨o, sims, res, hprep, happ, hres, hout⟩ := evaluator_ok_parts kge (.d1 xs) obs t 0 out h
    have hlen : sims.length = 1 := by
      have := prep_ok_simsLength (.d1 xs) obs t 0 o sims hprep
      simpa [simSeries] using this
    obtain ⟨s, hss⟩ := List.length_eq_one.mp hlen
    subst hss
    rw [hres] at hout
    refine ⟨kge.compute o s, ?_, kge.compute_len o s⟩
    rw [hout]
    simp [shapeOut, kge]
  · intro rows obs t out h
    obtain ⟨o, sims, res, hprep, happ, hres, hout⟩ := evaluator_ok_parts kge (.d2 rows) obs t 1 out h
    have hlen : sims.length = rows.length := by
      have := prep_ok_simsLength (.d2 rows) obs t 1 o sims hprep
      simpa [simSeries] using this
    refine ⟨res, ?_, ?_, ?_⟩
    · rw [hout]
      simp [shapeOut, kge]
    · rw [hres, List.length_map, hlen]
    · intro r hr
      rw [hres] at hr
      obtain ⟨s, _, hsr⟩ := List.mem_map.mp hr
      rw [← hsr]
      exact kge.compute_len o s

/-- Witness for C5: NSE on a single simulated series returns a scalar. -/
theorem C5_output_shape_witness :
    nse.ncomp = 1 ∧
    evaluator nse (.d1 [some 1, some 2]) (.d1 [some 1, some 2]) none 0 = .ok (.scalar 1) ∧
    ∃ v, OutArr.scalar 1 = OutArr.scalar v := by
  have h : evaluator nse (.d1 [some 1, some 2]) (.d1 [some 1, some 2]) none 0
      = .ok (.scalar 1) := by
    norm_num [evaluator, prep, validate, prepData, obsSeries, simSeries, applyTransform,
      exceptMap, maskSim, desomeE, NpArr.ndim, unknownTransform, List.filterMap, applyAll,
      nse, nseCheck, sqDev, mean, sse, shapeOut]
  exact ⟨rfl, h,
    C5_output_shape.2.1 nse [some 1, some 2] (.d1 [some 1, some 2]) none (.scalar 1) rfl h⟩

/-- C9: evaluator error contract.  The evaluator returns a
`ValidationError` exactly when the shape conditions of §7 fail
(dimensionality above 2, observed array without a single series, unknown
transform name, or length mismatch along the declared time axis), and
returns a `DataError` whenever the input validates but every observed value
is missing, so that no valid paired observations remain. -/
theorem C9_error_contract (f : ObjFun) (sim obs : NpArr) (t : Option String) (axis : Nat) :
    ((∃ m, evaluator f sim obs t axis = .error (.validationError m)) ↔
      validationFails sim obs t axis = true) ∧
    (∀ oR, validationFails sim obs t axis = false → obsSeries obs = .ok oR →
      oR.filterMap id = [] → ∃ m, evaluator f sim obs t axis = .error (.dataError m)) := by
  constructor
  · constructor
    · rintro ⟨m, hm⟩
      rcases evaluator_error_cases f sim obs t axis _ hm with hp | ⟨m2, hm2⟩
      · rcases prep_error_cases sim obs t axis _ hp with hv | ⟨oRaw, hv, hd⟩
        · exact (validationFails_iff sim obs t axis).mpr ⟨_, hv⟩
        · obtain ⟨m3, hm3⟩ := prepData_error oRaw _ t _ hd
          cases hm3
      · cases hm2
    · intro hvf
      obtain ⟨e, he⟩ := (validationFails_iff sim obs t axis).mp hvf
      obtain ⟨m, hm⟩ := validate_error_kind sim obs t axis e he
      subst hm
      exact ⟨m, evaluator_of_validate_error f sim obs t axis _ he⟩
  · intro oR hvf hobs hempty
    have hval : validate sim obs t axis = .ok oR := by
      cases hv : validate sim obs t axis with
      | error e =>
          rw [(validationFails_iff sim obs t axis).mpr ⟨e, hv⟩] at hvf
          cases hvf
      | ok oR2 =>
          obtain ⟨hobs2, _⟩ := validate_ok sim obs t axis oR2 hv
          rw [hobs] at hobs2
          rw [Except.ok.inj hobs2]
    have hnone : ∀ v ∈ oR, v = none := by
      intro v hv2
      have := List.filterMap_eq_nil_iff.mp hempty v hv2
      simpa using this
    have htr : applyTransform t oR = .ok oR := applyTransform_all_none t oR hnone
    unfold evaluator prep
    rw [hval]
    dsimp only
    unfold prepData
    rw [htr]
    dsimp only
    cases hm : exceptMap (applyTransform t) (simSeries sim axis) with
    | error e =>
        obtain ⟨a, _, ha⟩ := exceptMap_error _ _ e hm
        obtain ⟨m, hm2⟩ := applyTransform_error t a e ha
        exact ⟨m, by rw [hm2]⟩
    | ok simsT =>
        dsimp only
        rw [if_pos (by simp [hempty])]
        exact ⟨_, rfl⟩

/-- Witness for C9: an all-missing observed series passes validation and
then raises a `DataError`. -/
theorem C9_error_contract_witness :
    validationFails (.d1 [some 1]) (.d1 [none]) none 0 = false ∧
    obsSeries (.d1 [none]) = .ok [none] ∧
    ([none] : List Val).filterMap id = [] ∧
    ∃ m, evaluator rmse (.d1 [some 1]) (.d1 [none]) none 0 = .error (.dataError m) := by
  refine ⟨rfl, rfl, rfl, ?_⟩
  exact (C9_error_contract rmse (.d1 [some 1]) (.d1 [none]) none 0).2 [none] rfl rfl rfl

/-- C10 counterexample: a valid input on which the untransformed KGE call
succeeds but the call with `transform = "inv"` raises a `DataError`,
because the reciprocal series has zero mean — refuting the claim that the
inverse-transformed call succeeds on every valid input. -/
theorem C10_counterexample :
    evaluator kge (.d1 [some 1, some 2, some (-2/3)])
        (.d1 [some 1, some 2, some (-2/3)]) none 0
      = .ok (.oneD (kge.compute [1, 2, -2/3] [1, 2, -2/3])) ∧
    evaluator kge (.d1 [some 1, some 2, some (-2/3)])
        (.d1 [some 1, some 2, some (-2/3)]) (some "inv") 0
      = .error (.dataError "zero mean in observed series") := by
  constructor
  · norm_num [evaluator, prep, validate, prepData, obsSeries, simSeries, applyTransform,
      exceptMap, maskSim, desomeE, NpArr.ndim, unknownTransform, List.filterMap, applyAll,
      kge, kgeCheck, sqDev, mean, shapeOut]
  · norm_num [evaluator, prep, validate, prepData, obsSeries, simSeries, applyTransform,
      exceptMap, maskSim, desomeE, NpArr.ndim, unknownTransform, List.filterMap, applyAll,
      kge, kgeCheck, sqDev, mean, invSeries, Except.map, knownTransforms, List.contains]

/-- C10 (amended): the transform keyword accepts the literal string `"inv"`
while the spelled-out name `"inverse"` is an unknown transform; and whenever
every observed and simulated value is nonzero, the KGE call with
`transform = "inv"` equals the untransformed KGE call on the element-wise
reciprocals of both series. -/
theorem C10_inv_transform :
    (evaluator kge (.d1 [some 1, some 2]) (.d1 [some 1, some 2]) (some "inverse") 0
      = .error (.validationError "unknown transform name")) ∧
    (∀ (obs sim : List ℚ), (∀ q ∈ obs, q ≠ 0) → (∀ q ∈ sim, q ≠ 0) →
      evaluator kge (.d1 (sim.map some)) (.d1 (obs.map some)) (some "inv") 0 =
        evaluator kge (.d1 (sim.map (fun q => some q⁻¹)))
          (.d1 (obs.map (fun q => some q⁻¹))) none 0) := by
  constructor
  · rfl
  · intro obs sim ho hs
    by_cases hL : sim.length = obs.length
    · have hvA : validate (.d1 (sim.map some)) (.d1 (obs.map some)) (some "inv") 0
          = .ok (obs.map some) := by
        unfold validate
        rw [if_neg (by norm_num [NpArr.ndim])]
        rw [if_neg (by norm_num [unknownTransform, knownTransforms])]
        dsimp only [obsSeries, simSeries]
        rw [if_pos (by simp [hL])]
      have hvB : validate (.d1 (sim.map (fun q => some q⁻¹)))
          (.d1 (obs.map (fun q => some q⁻¹))) none 0
          = .ok (obs.map (fun q => some q⁻¹)) := validate_d1 _ _ 0 (by simp [hL])
      have htrO : applyTransform (some "inv") (obs.map some)
          = .ok (obs.map fun q => some q⁻¹) := by
        simp only [applyTransform, if_pos rfl]
        exact invSeries_map_some obs ho
      have htrS : applyTransform (some "inv") (sim.map some)
          = .ok (sim.map fun q => some q⁻¹) := by
        simp only [applyTransform, if_pos rfl]
        exact invSeries_map_some sim hs
      have hpA : prep (.d1 (sim.map some)) (.d1 (obs.map some)) (some "inv") 0
          = prepData (obs.map some) [sim.map some] (some "inv") := by
        unfold prep
        rw [hvA]
        rfl
      have hpB : prep (.d1 (sim.map (fun q => some q⁻¹)))
          (.d1 (obs.map (fun q => some q⁻¹))) none 0
          = prepData (obs.map (fun q => some q⁻¹)) [sim.map (fun q => some q⁻¹)] none := by
        unfold prep
        rw [hvB]
        rfl
      have hPD : prepData (obs.map some) [sim.map some] (some "inv")
          = prepData (obs.map fun q => some q⁻¹) [sim.map fun q => some q⁻¹] none := by
        rw [prepData_none]
        unfold prepData
        rw [htrO]
        dsimp only
        simp only [exceptMap, htrS]
      unfold evaluator
      rw [hpA, hpB, hPD]
      cases h : prepData (obs.map fun q => some q⁻¹) [sim.map fun q => some q⁻¹] none with
      | error e => rfl
      | ok p =>
          obtain ⟨o2, sims2⟩ := p
          dsimp only
          cases applyAll kge o2 sims2 with
          | error e => rfl
          | ok res => rfl
    · have hvA : validate (.d1 (sim.map some)) (.d1 (obs.map some)) (some "inv") 0
          = .error (.validationError "simulated and observed lengths differ along time axis") := by
        unfold validate
        rw [if_neg (by norm_num [NpArr.ndim])]
        rw [if_neg (by norm_num [unknownTransform, knownTransforms])]
        dsimp only [obsSeries, simSeries]
        rw [if_neg (by simp [hL])]
      have hvB : validate (.d1 (sim.map (fun q => some q⁻¹)))
          (.d1 (obs.map (fun q => some q⁻¹))) none 0
          = .error (.validationError "simulated and observed lengths differ along time axis") := by
        unfold validate
        rw [if_neg (by norm_num [NpArr.ndim])]
        rw [if_neg (by norm_num [unknownTransform, knownTransforms])]
        dsimp only [obsSeries, simSeries]
        rw [if_neg (by simp [hL])]
      rw [evaluator_of_validate_error kge _ _ _ 0 _ hvA,
        evaluator_of_validate_error kge _ _ _ 0 _ hvB]

/-- Witness for the amended C10 at the concrete series `[1, 2]`. -/
theorem C10_inv_transform_witness :
    (∀ q ∈ [(1 : ℚ), 2], q ≠ 0) ∧
    evaluator kge (.d1 ([(1 : ℚ), 2].map some)) (.d1 ([(1 : ℚ), 2].map some)) (some "inv") 0 =
      evaluator kge (.d1 ([(1 : ℚ), 2].map (fun q => some q⁻¹)))
        (.d1 ([(1 : ℚ), 2].map (fun q => some q⁻¹))) none 0 := by
  have hnz : ∀ q ∈ [(1 : ℚ), 2], q ≠ 0 := by
    intro q hq
    fin_cases hq <;> norm_num
  exact ⟨hnz, C10_inv_transform.2 [1, 2] [1, 2] hnz hnz⟩

end HydroEval
